import Mathlib

/-!
Verification development for the RAG-based recipe recommendation backend.

The definitions below are shallow embeddings of the Python sources under
`src/backend/`:

* `makeApiRequest*`   embeds `EmbeddingGenerator._make_api_request`
  (`embedding_generator.py`, lines 40-88);
* `genLoop` / `generateEmbeddings` embed `EmbeddingGenerator.generate_embeddings`
  (`embedding_generator.py`, lines 111-154) together with
  `_load_checkpoint` / `_save_checkpoint`;
* `rowText` / `getProcessedData` embed `DataProcessor.get_processed_data`
  (`data_processor.py`, lines 11-38);
* `insertRecipes` embeds `VectorDB.insert_recipes` (`vector_db.py`, lines 60-126);
* `findSimilarRecipes` embeds `VectorDB.find_similar_recipes`
  (`vector_db.py`, lines 128-206);
* `processMessage` embeds `CookingAssistant.process_message`
  (`vector_db.py`, lines 231-253).

External effects (HTTP responses, database success/failure, the generative
API) are abstracted as oracle functions supplied to the embedded code; the
control flow acting on the oracle's answers is translated from the source
line by line.
-/

namespace RecipeRAG

/-! ## String containment (plain contiguous substring, no pattern syntax) -/

/-- Containment: `listContainsSub hay ns` is true when `ns` occurs contiguously inside `hay`. -/
def listContainsSub (hay ns : List Char) : Bool :=
  (List.range (hay.length + 1)).any (fun k => (hay.drop k).take ns.length = ns)

/-- String-level containment, via the underlying character lists. -/
def strContains (hay ns : String) : Bool :=
  listContainsSub hay.data ns.data

/-! ## `EmbeddingGenerator._make_api_request` (embedding_generator.py 40-88)

The remote inference API is abstracted as an oracle mapping the attempt
number to the response observed by `requests.post`. -/

/-- What one `requests.post` call can produce, as seen by `_make_api_request`:
an HTTP response with a status code and a JSON body, or a network-level
`RequestException` raised by the call itself. -/
inductive ApiResponse (α : Type) where
  | http (status : Nat) (body : α)
  | netError
deriving DecidableEq, Repr

/-- How `_make_api_request` terminates: `raised s` is a Python exception
escaping the function (`some code` for an `HTTPError` from
`raise_for_status`, `none` for a re-raised network `RequestException`);
`value b` is `return response.json()`; `fellThrough` is the implicit
`return None` when the `for` loop ends without returning. -/
inductive ApiResult (α : Type) where
  | raised (status : Option Nat)
  | value (b : α)
  | fellThrough
deriving DecidableEq, Repr

/-- Observable events of a `_make_api_request` run: an HTTP request being
issued (with its attempt number) and a `time.sleep` of the given seconds. -/
inductive ApiEvent where
  | request (attempt : Nat)
  | wait (seconds : Nat)
deriving DecidableEq, Repr

/-- Python `range(start, stop, step)` for a positive `step`: the indices a
`for` loop visits, embedded as `List.range'` with the matching count. -/
def pyRange (start stop step : Nat) : List Nat :=
  List.range' start ((stop - start + step - 1) / step) step

/-- The body of the `for attempt in range(max_retries)` loop of
`_make_api_request`, run over the list of remaining attempt numbers.
Faithful to the source: status 503 sleeps 20 then `continue`s; 429 sleeps
30 then `continue`s; 500 sleeps `30*(attempt+1)` then `continue`s;
otherwise `response.raise_for_status()` raises `HTTPError` for any status
≥ 400 — and `HTTPError` is a subclass of `RequestException`, so it is
caught by the `except RequestException` clause: re-raised only when
`attempt == max_retries - 1`, else sleep `10*(attempt+1)` and move to the
next attempt.  A status < 400 returns the JSON body.  A network error takes
the same except clause.  When the attempt list is exhausted the function
falls through and returns `None`. -/
def makeApiRequestGo (oracle : Nat → ApiResponse α) (maxRetries : Nat) :
    List Nat → ApiResult α × List ApiEvent
  | [] => (.fellThrough, [])
  | attempt :: more =>
    match oracle attempt with
    | .http s b =>
        if s = 503 then
          let rest := makeApiRequestGo oracle maxRetries more
          (rest.1, .request attempt :: .wait 20 :: rest.2)
        else if s = 429 then
          let rest := makeApiRequestGo oracle maxRetries more
          (rest.1, .request attempt :: .wait 30 :: rest.2)
        else if s = 500 then
          let rest := makeApiRequestGo oracle maxRetries more
          (rest.1, .request attempt :: .wait (30 * (attempt + 1)) :: rest.2)
        else if 400 ≤ s then
          -- raise_for_status raises HTTPError ⊆ RequestException, caught below
          if attempt = maxRetries - 1 then
            (.raised (some s), [.request attempt])
          else
            let rest := makeApiRequestGo oracle maxRetries more
            (rest.1, .request attempt :: .wait (10 * (attempt + 1)) :: rest.2)
        else
          (.value b, [.request attempt])
    | .netError =>
        if attempt = maxRetries - 1 then
          (.raised none, [.request attempt])
        else
          let rest := makeApiRequestGo oracle maxRetries more
          (rest.1, .request attempt :: .wait (10 * (attempt + 1)) :: rest.2)

/-- The function `_make_api_request` itself: the loop over `range(max_retries)`
(`max_retries` defaults to 5 at every call site). -/
def makeApiRequest (oracle : Nat → ApiResponse α) (maxRetries : Nat := 5) :
    ApiResult α × List ApiEvent :=
  makeApiRequestGo oracle maxRetries (List.range maxRetries)

/-- Number of HTTP requests recorded in a trace. -/
def requestCount (t : List ApiEvent) : Nat :=
  (t.filter (fun e => match e with | .request _ => true | _ => false)).length

/-! ## `EmbeddingGenerator.generate_embeddings` (embedding_generator.py 111-154)

The per-batch call to `_make_api_request` is abstracted as an oracle from the
batch's texts to its outcome.  `E` is the type of one embedding vector, `M`
the type of one metadata record. -/

/-- Outcome of `self._make_api_request(batch_texts)` as observed by the
`try` block of `generate_embeddings`: either a list of embeddings was
returned, or the `try` block raised (this branch also covers the `TypeError`
from `all_embeddings.extend(None)` when `_make_api_request` fell through
and returned `None`: in both cases the accumulators are unchanged and the
`except` clause runs). -/
inductive BatchOutcome (E : Type) where
  | ok (embs : List E)
  | exn
deriving DecidableEq, Repr

/-- Observable events of a `generate_embeddings` run. -/
inductive GenEvent (E M : Type) where
  | apiRequest (batchTexts : List String)
  | saveCkpt (batchIndex : Nat) (embeddings : List E) (metadata : List M)
  | sleep (seconds : Nat)
  | raiseErr
deriving DecidableEq, Repr

/-- How `generate_embeddings` terminates: normal return of
`(np.array(all_embeddings), processed_metadata)`, or re-raising the batch
error after saving a checkpoint. -/
inductive GenResult (E M : Type) where
  | done (embeddings : List E) (metadata : List M)
  | raised
deriving DecidableEq, Repr

/-- The body of the
`for i in range(start_batch * batch_size, len(texts), batch_size)` loop of
`generate_embeddings`, run over the list of remaining batch start positions,
with accumulators `accE` (= `all_embeddings`) and `accM`
(= `processed_metadata`).  On success the batch's embeddings and metadata
are appended, then — the source checks this after extending — a checkpoint
with batch index `i / batchSize` is saved when that index is a multiple of
5, then `time.sleep(1)`.  On an exception a checkpoint with the current
accumulators is saved and the error re-raised. -/
def genLoopGo (api : List String → BatchOutcome E) (texts : List String)
    (metadata : List M) (batchSize : Nat) :
    List Nat → List E → List M → GenResult E M × List (GenEvent E M)
  | [], accE, accM => (.done accE accM, [])
  | i :: more, accE, accM =>
    let batchTexts := (texts.drop i).take batchSize
    let batchMeta := (metadata.drop i).take batchSize
    match api batchTexts with
    | .ok embs =>
        let accE' := accE ++ embs
        let accM' := accM ++ batchMeta
        let saves : List (GenEvent E M) :=
          if (i / batchSize) % 5 = 0 then [.saveCkpt (i / batchSize) accE' accM'] else []
        let rest := genLoopGo api texts metadata batchSize more accE' accM'
        (rest.1, .apiRequest batchTexts :: (saves ++ .sleep 1 :: rest.2))
    | .exn =>
        (.raised, [.apiRequest batchTexts, .saveCkpt (i / batchSize) accE accM, .raiseErr])

/-- Checkpoint contents, as pickled by `_save_checkpoint` and read back by
`_load_checkpoint`. -/
structure Checkpoint (E M : Type) where
  batchIndex : Nat
  embeddings : List E
  metadata : List M
deriving DecidableEq, Repr

/-- The function `generate_embeddings`: `_load_checkpoint` yields
`(batch_index, embeddings, metadata)` from the checkpoint file when present
and `(0, [], [])` otherwise, and the loop starts at
`start_batch * batch_size`. -/
def generateEmbeddings (api : List String → BatchOutcome E) (texts : List String)
    (metadata : List M) (batchSize : Nat) (ckpt : Option (Checkpoint E M)) :
    GenResult E M × List (GenEvent E M) :=
  let start := match ckpt with
    | some c => (c.batchIndex, c.embeddings, c.metadata)
    | none => (0, ([] : List E), ([] : List M))
  genLoopGo api texts metadata batchSize
    (pyRange (start.1 * batchSize) texts.length batchSize) start.2.1 start.2.2

/-- The texts of the API requests recorded in a `generate_embeddings` trace,
in order. -/
def requestedBatches : List (GenEvent E M) → List (List String)
  | [] => []
  | .apiRequest b :: t => b :: requestedBatches t
  | _ :: t => requestedBatches t

/-! ## `DataProcessor.get_processed_data` (data_processor.py 11-38)

A CSV row, as consumed by `row.get(column, '')`: each field is `none` when
the column is absent from the data frame (the `.get` default applies) and
`some s` when present with cell content `s`. -/

structure CsvRow where
  recipeName : Option String
  ingredients : Option String
  timeToCook : Option String
  instructions : Option String
deriving DecidableEq, Repr

/-- Field access `row.get(col, '')`: the cell's string when the column exists, `''`
otherwise. -/
def rowGet (v : Option String) : String := v.getD ""

/-- The f-string of data_processor.py lines 23-26 for one row. -/
def rowText (r : CsvRow) : String :=
  "Recipe: " ++ rowGet r.recipeName ++ ". " ++
  "Ingredients: " ++ rowGet r.ingredients ++ ". " ++
  "TimeToCook: " ++ rowGet r.timeToCook ++ ". " ++
  "Instructions: " ++ rowGet r.instructions

/-- The method `get_processed_data`: the per-row texts (via `df.apply`) and the rows
themselves as metadata (`df.to_dict('records')`). -/
def getProcessedData (rows : List CsvRow) : List String × List CsvRow :=
  (rows.map rowText, rows)

/-! ## `VectorDB` (vector_db.py)

One embedding cell: `nan` models a float NaN (the only value the
sanitization of line 87 touches), `val q` any other numeric value. -/

inductive Cell where
  | nan
  | val (x : ℚ)
deriving DecidableEq, Repr

/-- Line 87: `[0.0 if isinstance(x, float) and math.isnan(x) else x for x in embedding]`. -/
def sanitizeEmbedding (e : List Cell) : List Cell :=
  e.map (fun c => match c with | .nan => .val 0 | v => v)

/-- A recipe dict as passed to `insert_recipes`: `recipe.get(key)` returns
`none` when the key is absent. -/
structure RecipeDict where
  id : Option Int
  recipeName : Option String
  timeToCook : Option String
  ingredients : Option String
  instructions : Option String
  embedding : List Cell
deriving DecidableEq, Repr

/-- A stored row of the `recipes` table (columns of the `CREATE TABLE` in
`create_tables`, vector_db.py 46-55). -/
structure DBRow where
  id : Option Int
  recipeName : Option String
  timeToCook : Option String
  ingredients : Option String
  instructions : Option String
  embedding : List Cell
deriving DecidableEq, Repr

/-- The `recipes` table. -/
abbrev DB := List DBRow

/-- The value tuple built for one recipe (vector_db.py 83-102): the
embedding is NaN-sanitized, then serialized for the `VECTOR(768)` column
(serialization preserves the sequence of values, kept as `List Cell` here). -/
def prepareRecipe (r : RecipeDict) : DBRow :=
  { id := r.id, recipeName := r.recipeName, timeToCook := r.timeToCook
    ingredients := r.ingredients, instructions := r.instructions
    embedding := sanitizeEmbedding r.embedding }

/-- Whether `cursor.executemany` + `commit` succeeds for a prepared batch.
Modelled from the schema DDL `embedding VECTOR(768)` (vector_db.py 53): the
database rejects any row whose serialized vector does not have exactly 768
entries, and `dbOk k` lets the database fail batch `k` for any external
reason (connection loss, constraint, ...). -/
def batchInsertOk (dbOk : Nat → Bool) (k : Nat) (rows : List DBRow) : Bool :=
  dbOk k && rows.all (fun r => r.embedding.length = 768)

/-- The body of the `for i in range(0, len(recipes), batch_size)` loop of
`insert_recipes` (vector_db.py 75-126), run over the list of remaining
batch start positions; `i / batchSize` is the 0-based batch number.  Per
batch: prepare the data; `if not batch_data: continue`; then `executemany`
+ `commit`, and on any insert failure `rollback` — the batch is logged and
skipped, the loop continues.  Returns the final table and the list of
`(batch number, insert succeeded)` attempts. -/
def insertLoopGo (dbOk : Nat → Bool) (recipes : List RecipeDict) (batchSize : Nat) :
    List Nat → DB → DB × List (Nat × Bool)
  | [], db => (db, [])
  | i :: more, db =>
    let batch := (recipes.drop i).take batchSize
    let batchData := batch.map prepareRecipe
    if batchData.isEmpty then
      insertLoopGo dbOk recipes batchSize more db
    else
      let k := i / batchSize
      if batchInsertOk dbOk k batchData then
        let rest := insertLoopGo dbOk recipes batchSize more (db ++ batchData)
        (rest.1, (k, true) :: rest.2)
      else
        let rest := insertLoopGo dbOk recipes batchSize more db
        (rest.1, (k, false) :: rest.2)

/-- The method `insert_recipes(recipes, batch_size=50)` run against table state `db`. -/
def insertRecipes (dbOk : Nat → Bool) (db : DB) (recipes : List RecipeDict)
    (batchSize : Nat := 50) : DB × List (Nat × Bool) :=
  insertLoopGo dbOk recipes batchSize (pyRange 0 recipes.length batchSize) db

/-- Python `str.split(',')` over the character list: splits at every comma,
keeping empty pieces (the empty string splits to one empty piece). -/
def splitCommas : List Char → List (List Char)
  | [] => [[]]
  | c :: rest =>
    match splitCommas rest with
    | [] => if c = ',' then [[], []] else [[c]]
    | g :: gs => if c = ',' then [] :: g :: gs else (c :: g) :: gs

/-- Python `str.strip()`: remove leading and trailing whitespace. -/
def pyStrip (l : List Char) : List Char :=
  ((l.dropWhile Char.isWhitespace).reverse.dropWhile Char.isWhitespace).reverse

/-- Python `str.lower()` / SQL `LOWER(...)` on the ingredient data (ASCII). -/
def pyLower (l : List Char) : List Char := l.map Char.toLower

/-- Line 150: `[i.strip().lower() for i in search_term.split(',') if i.strip()]`. -/
def parseIngredients (s : String) : List String :=
  ((splitCommas s.data).filter (fun i => pyStrip i ≠ [])).map
    (fun i => String.mk (pyLower (pyStrip i)))

/-- SQL `LIKE` pattern matching over character lists: `%` matches any
(possibly empty) substring, `_` matches exactly one character, every other
pattern character matches itself.  The queries under verification build
their patterns by wrapping a term in `%...%` and never set an escape
character, so escapes are not modelled. -/
def likeMatch : List Char → List Char → Bool
  | [], s => s.isEmpty
  | p :: ps, s =>
    if p = '%' then
      (List.range (s.length + 1)).any (fun k => likeMatch ps (s.drop k))
    else
      match s with
      | [] => false
      | c :: t => (p = '_' || p = c) && likeMatch ps t

/-- The clause `LOWER(Ingredients) LIKE '%term%'` for one stored row and one
(already lowercased) term: the bound pattern is `'%' ++ term ++ '%'` with
full SQL wildcard semantics for any `%` or `_` inside the term; a SQL NULL
ingredients column never matches. -/
def rowMatchesTerm (r : DBRow) (term : String) : Bool :=
  match r.ingredients with
  | none => false
  | some s => likeMatch ('%' :: (term.data ++ ['%'])) (pyLower s.data)

/-- A result dict of `find_similar_recipes` (vector_db.py 189-195). -/
structure FoundRecipe where
  recipeName : Option String
  timeToCook : Option String
  ingredients : Option String
  instructions : Option String
  similarity : ℚ
deriving DecidableEq, Repr

/-- The method `find_similar_recipes(search_term, limit)` (vector_db.py 128-206):
empty table → `[]`; no non-blank comma-separated terms → `[]`; otherwise
the rows whose lowercased ingredients `LIKE`-match ANY term's `%term%`
pattern (the `OR` of the `LIKE` clauses), truncated to `limit` (`LIMIT %s`,
taken in table order), each tagged with constant similarity 1.0. -/
def findSimilarRecipes (db : DB) (searchTerm : String) (limit : Nat) :
    List FoundRecipe :=
  if db.length = 0 then []
  else if (parseIngredients searchTerm).isEmpty then []
  else
    ((db.filter (fun r => (parseIngredients searchTerm).any (rowMatchesTerm r))).take
        limit).map (fun r =>
      { recipeName := r.recipeName, timeToCook := r.timeToCook
        ingredients := r.ingredients, instructions := r.instructions
        similarity := 1 })

/-! ## `CookingAssistant.process_message` (vector_db.py 231-253) -/

/-- What the Gemini call can do, as observed by the `try` block: raise any
exception (missing/invalid `GEMINI_API_KEY`, import failure, network error),
or produce a response whose `text` attribute is absent (`none`) or holds a
string.  `process_message` checks `hasattr(response, "text") and
response.text`, so `some ""` is falsy and takes the apology branch. -/
inductive GeminiBehavior where
  | raisesError
  | returnsText (t : Option String)
deriving DecidableEq, Repr

/-- The fixed fallback for an empty/absent response text (vector_db.py 249). -/
def fallbackEmpty : String :=
  "I apologize, but I couldn't generate a response for your query. Please try again."

/-- The fixed fallback of the `except` clause (vector_db.py 253). -/
def fallbackError : String :=
  "I apologize, but I encountered an error while trying to generate a response. Please ensure your GEMINI_API_KEY is correct and try again."

/-- The fixed instruction appended to the user message (vector_db.py 243). -/
def assistantInstruction : String :=
  " You are a helpful recipe recommender assistant. Answer only if the question is relevant to the recipe recommendations, food based, time to cook, where the dish is most famous etc. all and only about food. If the question is not relevant to food, say 'I'm sorry, I can only help with recipe recommendations.'. Give answers in the format: Recipe name, Time to cook, Ingredients, Instructions. Give no extra information unless asked for."

/-- The method `process_message(message)`: builds `message + instruction`, calls the
generative API (abstracted as `api`), returns `response.text` when present
and truthy, `fallbackEmpty` when absent or empty, and `fallbackError` when
anything in the `try` block raises. -/
def processMessage (api : String → GeminiBehavior) (message : String) : String :=
  let prompt := message ++ assistantInstruction
  match api prompt with
  | .raisesError => fallbackError
  | .returnsText none => fallbackEmpty
  | .returnsText (some t) => if t = "" then fallbackEmpty else t

/-- The Gemini call failed from `process_message`'s point of view: the
`try` block raised, or `hasattr(response, "text") and response.text` is
falsy. -/
def geminiFailed : GeminiBehavior → Bool
  | .raisesError => true
  | .returnsText none => true
  | .returnsText (some t) => t = ""

/-! ## Helper lemmas about `pyRange` -/

lemma ceil_count_step (L i bs : Nat) (hbs : 0 < bs) (hi : i < L) :
    (L - i + bs - 1) / bs = (L - (i + bs) + bs - 1) / bs + 1 := by
  have e2 : L - i + bs - 1 = (L - i - 1) + bs := by omega
  rw [e2, Nat.add_div_right _ hbs]
  congr 1
  rcases le_or_lt bs (L - i) with hc | hc
  · congr 1
    omega
  · have l1 : L - i - 1 < bs := by omega
    have l2 : L - (i + bs) + bs - 1 < bs := by omega
    rw [Nat.div_eq_of_lt l1, Nat.div_eq_of_lt l2]

lemma pyRange_nil (start stop step : Nat) (h : stop ≤ start) :
    pyRange start stop step = [] := by
  unfold pyRange
  have h0 : stop - start = 0 := by omega
  rw [h0]
  have hc : (0 + step - 1) / step = 0 := by
    rcases Nat.eq_zero_or_pos step with hs | hs
    · subst hs; rfl
    · exact Nat.div_eq_of_lt (by omega)
  rw [hc]
  rfl

lemma pyRange_cons (start stop step : Nat) (hs : 0 < step) (h : start < stop) :
    pyRange start stop step = start :: pyRange (start + step) stop step := by
  unfold pyRange
  rw [ceil_count_step stop start step hs h, List.range'_succ]

/-! ## Helper lemmas about containment -/

lemma listContainsSub_of_drop (hay ns : List Char) (k : Nat) (hk : k ≤ hay.length)
    (h : (hay.drop k).take ns.length = ns) : listContainsSub hay ns = true := by
  unfold listContainsSub
  rw [List.any_eq_true]
  exact ⟨k, List.mem_range.2 (Nat.lt_succ_of_le hk), by simp [h]⟩

lemma listContainsSub_append_right (a b ns : List Char)
    (h : listContainsSub b ns = true) : listContainsSub (a ++ b) ns = true := by
  unfold listContainsSub at h ⊢
  rw [List.any_eq_true] at h ⊢
  obtain ⟨k, hk, hp⟩ := h
  refine ⟨a.length + k, List.mem_range.2 ?_, ?_⟩
  · have hk' := List.mem_range.1 hk
    simp only [List.length_append]
    omega
  · have hd : (a ++ b).drop (a.length + k) = b.drop k := by
      simp [List.drop_append]
    rw [hd]
    exact hp

lemma listContainsSub_self_append (ns rest : List Char) :
    listContainsSub (ns ++ rest) ns = true := by
  refine listContainsSub_of_drop _ _ 0 (Nat.zero_le _) ?_
  simp

lemma strContains_append_right (a b ns : String)
    (h : strContains b ns = true) : strContains (a ++ b) ns = true := by
  unfold strContains at h ⊢
  rw [String.data_append]
  exact listContainsSub_append_right _ _ _ h

lemma rowText_data (r : CsvRow) : (rowText r).data =
    "Recipe: ".data ++ ((rowGet r.recipeName).data ++ (". ".data ++
    ("Ingredients: ".data ++ ((rowGet r.ingredients).data ++ (". ".data ++
    ("TimeToCook: ".data ++ ((rowGet r.timeToCook).data ++ (". ".data ++
    ("Instructions: ".data ++ (rowGet r.instructions).data))))))))) := by
  simp [rowText, String.data_append, List.append_assoc]

lemma rowText_has_labels (r : CsvRow) :
    strContains (rowText r) "Recipe:" = true ∧
    strContains (rowText r) "Ingredients:" = true ∧
    strContains (rowText r) "TimeToCook:" = true ∧
    strContains (rowText r) "Instructions:" = true := by
  unfold strContains
  rw [rowText_data]
  refine ⟨?_, ?_, ?_, ?_⟩
  · have h : "Recipe: ".data = "Recipe:".data ++ " ".data := by decide
    rw [h, List.append_assoc]
    exact listContainsSub_self_append _ _
  · refine listContainsSub_append_right _ _ _ ?_
    refine listContainsSub_append_right _ _ _ ?_
    refine listContainsSub_append_right _ _ _ ?_
    have h : "Ingredients: ".data = "Ingredients:".data ++ " ".data := by decide
    rw [h, List.append_assoc]
    exact listContainsSub_self_append _ _
  · refine listContainsSub_append_right _ _ _ ?_
    refine listContainsSub_append_right _ _ _ ?_
    refine listContainsSub_append_right _ _ _ ?_
    refine listContainsSub_append_right _ _ _ ?_
    refine listContainsSub_append_right _ _ _ ?_
    refine listContainsSub_append_right _ _ _ ?_
    have h : "TimeToCook: ".data = "TimeToCook:".data ++ " ".data := by decide
    rw [h, List.append_assoc]
    exact listContainsSub_self_append _ _
  · refine listContainsSub_append_right _ _ _ ?_
    refine listContainsSub_append_right _ _ _ ?_
    refine listContainsSub_append_right _ _ _ ?_
    refine listContainsSub_append_right _ _ _ ?_
    refine listContainsSub_append_right _ _ _ ?_
    refine listContainsSub_append_right _ _ _ ?_
    refine listContainsSub_append_right _ _ _ ?_
    refine listContainsSub_append_right _ _ _ ?_
    refine listContainsSub_append_right _ _ _ ?_
    have h : "Instructions: ".data = "Instructions:".data ++ " ".data := by decide
    rw [h, List.append_assoc]
    exact listContainsSub_self_append _ _

/-- C8: for every input row, including rows whose optional columns are
missing, `DataProcessor.get_processed_data` renders a text containing all
four fixed labels "Recipe:", "Ingredients:", "TimeToCook:" and
"Instructions:"; a missing field is rendered exactly as the empty string
(replacing each field by the string `row.get` produces yields the same
text), and the operation is a total function on rows — no row makes it
raise. -/
theorem dataProcessor_labels_and_missing_fields (rows : List CsvRow) :
    (∀ t ∈ (getProcessedData rows).1,
      strContains t "Recipe:" = true ∧
      strContains t "Ingredients:" = true ∧
      strContains t "TimeToCook:" = true ∧
      strContains t "Instructions:" = true) ∧
    (∀ r : CsvRow,
      rowText r = rowText ⟨some (rowGet r.recipeName), some (rowGet r.ingredients),
        some (rowGet r.timeToCook), some (rowGet r.instructions)⟩) ∧
    (getProcessedData rows).1.length = rows.length := by
  refine ⟨?_, ?_, by simp [getProcessedData]⟩
  · intro t ht
    simp only [getProcessedData, List.mem_map] at ht
    obtain ⟨r, _, rfl⟩ := ht
    exact rowText_has_labels r
  · intro r
    simp [rowText, rowGet]

/-- Witness for C8 at a concrete row list with every optional column
missing. -/
theorem dataProcessor_labels_and_missing_fields_witness :
    strContains (rowText ⟨none, none, none, none⟩) "Recipe:" = true ∧
    rowText ⟨none, none, none, none⟩ = rowText ⟨some "", some "", some "", some ""⟩ := by
  refine ⟨?_, ?_⟩
  · exact ((dataProcessor_labels_and_missing_fields [⟨none, none, none, none⟩]).1
      (rowText ⟨none, none, none, none⟩) (by simp [getProcessedData])).1
  · exact (dataProcessor_labels_and_missing_fields []).2.1 ⟨none, none, none, none⟩

/-- C7: for every input string (empty and whitespace-only included) and
every behaviour of the generative API — raising any exception, returning a
response without a usable text, or returning an empty text —
`CookingAssistant.process_message` never propagates an exception
(`processMessage` is a total `String`-valued function) and on any failure
returns one of exactly the two fixed fallback strings; on success it
returns the API text verbatim. -/
theorem processMessage_total_two_fallbacks (api : String → GeminiBehavior)
    (message : String) :
    (geminiFailed (api (message ++ assistantInstruction)) = true →
      processMessage api message = fallbackEmpty ∨
      processMessage api message = fallbackError) ∧
    (geminiFailed (api (message ++ assistantInstruction)) = false →
      ∃ t, api (message ++ assistantInstruction) = .returnsText (some t) ∧
        t ≠ "" ∧ processMessage api message = t) := by
  constructor
  · intro hfail
    cases hapi : api (message ++ assistantInstruction) with
    | raisesError => right; simp [processMessage, hapi]
    | returnsText t =>
      cases t with
      | none => left; simp [processMessage, hapi]
      | some s =>
        left
        rw [hapi] at hfail
        simp only [geminiFailed, decide_eq_true_eq] at hfail
        simp [processMessage, hapi, hfail]
  · intro hok
    cases hapi : api (message ++ assistantInstruction) with
    | raisesError => rw [hapi] at hok; simp [geminiFailed] at hok
    | returnsText t =>
      cases t with
      | none => rw [hapi] at hok; simp [geminiFailed] at hok
      | some s =>
        rw [hapi] at hok
        simp only [geminiFailed, decide_eq_false_iff_not] at hok
        exact ⟨s, rfl, hok, by simp [processMessage, hapi, hok]⟩

/-- Witness for C7: an API that always raises, on the empty message, yields
a fallback string. -/
theorem processMessage_total_two_fallbacks_witness :
    processMessage (fun _ => GeminiBehavior.raisesError) "" = fallbackEmpty ∨
    processMessage (fun _ => GeminiBehavior.raisesError) "" = fallbackError :=
  (processMessage_total_two_fallbacks (fun _ => GeminiBehavior.raisesError) "").1 rfl

lemma likeMatch_nil (s : List Char) : likeMatch [] s = s.isEmpty := rfl

lemma likeMatch_pct (ps s : List Char) :
    likeMatch ('%' :: ps) s =
      (List.range (s.length + 1)).any (fun k => likeMatch ps (s.drop k)) := rfl

lemma likeMatch_cons (p : Char) (ps : List Char) (hp : p ≠ '%') (s : List Char) :
    likeMatch (p :: ps) s =
      match s with
      | [] => false
      | c :: t => (decide (p = '_') || decide (p = c)) && likeMatch ps t := by
  rw [likeMatch.eq_def]
  dsimp only
  rw [if_neg hp]

/-- Matching a wildcard-free pattern followed by a final `%` succeeds on
exactly the strings that start with the pattern. -/
lemma likeMatch_plain_append : ∀ (t : List Char), (∀ c ∈ t, c ≠ '%' ∧ c ≠ '_') →
    ∀ u : List Char, (likeMatch (t ++ ['%']) u = true ↔ u.take t.length = t) := by
  intro t
  induction t with
  | nil =>
    intro _ u
    simp only [List.nil_append, List.length_nil, List.take_zero]
    constructor
    · intro _
      trivial
    · intro _
      rw [likeMatch_pct, List.any_eq_true]
      refine ⟨u.length, List.mem_range.2 (by omega), ?_⟩
      rw [likeMatch_nil]
      simp
  | cons c t' ih =>
    intro hw u
    obtain ⟨hc1, hc2⟩ := hw c (List.mem_cons_self c t')
    have hw' : ∀ x ∈ t', x ≠ '%' ∧ x ≠ '_' := fun x hx => hw x (List.mem_cons_of_mem c hx)
    rw [List.cons_append, likeMatch_cons c (t' ++ ['%']) hc1 u]
    cases u with
    | nil => simp
    | cons d u' =>
      rw [Bool.and_eq_true, Bool.or_eq_true]
      simp only [decide_eq_true_eq]
      rw [List.length_cons, List.take_succ_cons]
      constructor
      · rintro ⟨hcd, hrec⟩
        rcases hcd with h | h
        · exact absurd h hc2
        · rw [← h, (ih hw' u').1 hrec]
      · intro heq
        rw [List.cons.injEq] at heq
        obtain ⟨h1, h2⟩ := heq
        exact ⟨Or.inr h1.symm, (ih hw' u').2 h2⟩

/-- For a term with no SQL wildcard in it, the pattern `%term%` matches a
string exactly when the string contains the term as a substring. -/
lemma likeMatch_wrap_contains (t s : List Char) (hw : ∀ c ∈ t, c ≠ '%' ∧ c ≠ '_') :
    likeMatch ('%' :: (t ++ ['%'])) s = listContainsSub s t := by
  rw [likeMatch_pct]
  unfold listContainsSub
  congr 1
  funext k
  by_cases hp : (s.drop k).take t.length = t
  · simp [hp, (likeMatch_plain_append t hw (s.drop k)).2 hp]
  · have hfalse : likeMatch (t ++ ['%']) (s.drop k) = false := by
      cases hb : likeMatch (t ++ ['%']) (s.drop k)
      · rfl
      · exact absurd ((likeMatch_plain_append t hw (s.drop k)).1 hb) hp
    simp [hfalse, hp]

/-- Counterexample to C4 as stated: with one stored row whose ingredients
column is "abc" and the search term "a_c", the single parsed term is "a_c";
its SQL pattern `%a_c%` matches "abc" through the `_` wildcard, so
`find_similar_recipes` returns the row — yet "abc" does not contain "a_c",
so the returned row's ingredients do not case-insensitively contain any of
the terms. -/
theorem findSimilarRecipes_counterexample :
    parseIngredients "a_c" = ["a_c"] ∧
    findSimilarRecipes
        [{ id := some 0, recipeName := none, timeToCook := none, ingredients := some "abc"
           instructions := none, embedding := [] }] "a_c" 2 =
      [{ recipeName := none, timeToCook := none, ingredients := some "abc"
         instructions := none, similarity := 1 }] ∧
    listContainsSub (pyLower "abc".data) "a_c".data = false ∧
    strContains "abc" "a_c" = false := by
  exact ⟨by decide, by decide, by decide, by decide⟩

/-- C4 (amended): `find_similar_recipes` parses the search term as a
comma-separated list of trimmed, lowercased terms and returns at most
`limit` rows, each with constant similarity 1.0; every returned row's
lowercased ingredients column matches the SQL `LIKE` pattern `%term%` of at
least one term (logical OR over terms) — which, whenever no parsed term
contains a SQL wildcard character `%` or `_`, says exactly that every
returned row's ingredients case-insensitively contain at least one of the
terms; an empty store or a term list with no non-blank entry yields `[]`
rather than an error. -/
theorem findSimilarRecipes_matches (db : DB) (searchTerm : String) (limit : Nat) :
    (findSimilarRecipes db searchTerm limit).length ≤ limit ∧
    (∀ r ∈ findSimilarRecipes db searchTerm limit, r.similarity = 1) ∧
    (∀ r ∈ findSimilarRecipes db searchTerm limit,
      ∃ t ∈ parseIngredients searchTerm, ∃ s, r.ingredients = some s ∧
        likeMatch ('%' :: (t.data ++ ['%'])) (pyLower s.data) = true) ∧
    ((∀ t ∈ parseIngredients searchTerm, '%' ∉ t.data ∧ '_' ∉ t.data) →
      ∀ r ∈ findSimilarRecipes db searchTerm limit,
        ∃ t ∈ parseIngredients searchTerm, ∃ s, r.ingredients = some s ∧
          listContainsSub (pyLower s.data) t.data = true) ∧
    (db = [] → findSimilarRecipes db searchTerm limit = []) ∧
    (parseIngredients searchTerm = [] → findSimilarRecipes db searchTerm limit = []) := by
  have hmain : ∀ r ∈ findSimilarRecipes db searchTerm limit,
      ∃ t ∈ parseIngredients searchTerm, ∃ s, r.ingredients = some s ∧
        likeMatch ('%' :: (t.data ++ ['%'])) (pyLower s.data) = true := by
    intro r hr
    unfold findSimilarRecipes at hr
    split at hr
    · simp at hr
    · split at hr
      · simp at hr
      · obtain ⟨x, hx, rfl⟩ := List.mem_map.1 hr
        have hx' := List.mem_of_mem_take hx
        have hmem := List.of_mem_filter hx'
        rw [List.any_eq_true] at hmem
        obtain ⟨t, ht, hmatch⟩ := hmem
        refine ⟨t, ht, ?_⟩
        unfold rowMatchesTerm at hmatch
        cases hing : x.ingredients with
        | none => rw [hing] at hmatch; simp at hmatch
        | some s =>
          rw [hing] at hmatch
          exact ⟨s, rfl, hmatch⟩
  refine ⟨?_, ?_, hmain, ?_, ?_, ?_⟩
  · unfold findSimilarRecipes
    split
    · simp
    · split
      · simp
      · simp only [List.length_map, List.length_take]
        exact min_le_left _ _
  · intro r hr
    unfold findSimilarRecipes at hr
    split at hr
    · simp at hr
    · split at hr
      · simp at hr
      · obtain ⟨x, _, rfl⟩ := List.mem_map.1 hr
        rfl
  · intro hw r hr
    obtain ⟨t, ht, s, hs, hl⟩ := hmain r hr
    refine ⟨t, ht, s, hs, ?_⟩
    have hw' : ∀ c ∈ t.data, c ≠ '%' ∧ c ≠ '_' := by
      intro c hc
      obtain ⟨h1, h2⟩ := hw t ht
      exact ⟨fun he => h1 (he ▸ hc), fun he => h2 (he ▸ hc)⟩
    rw [← likeMatch_wrap_contains t.data (pyLower s.data) hw']
    exact hl
  · intro hdb
    subst hdb
    rfl
  · intro hterms
    unfold findSimilarRecipes
    split
    · rfl
    · rw [hterms]
      rfl

/-- Witness for C4: the empty store returns `[]`; a one-row store queried
with "Chicken, " returns rows with similarity 1 whose ingredients contain
the wildcard-free term. -/
theorem findSimilarRecipes_matches_witness :
    (findSimilarRecipes [] "chicken" 2 = []) ∧
    (∀ r ∈ findSimilarRecipes
        [{ id := some 0, recipeName := some "Butter Chicken", timeToCook := some "40"
           ingredients := some "onion, tomato, chicken", instructions := some "cook"
           embedding := [] }] "Chicken, " 2, r.similarity = 1) ∧
    (∀ r ∈ findSimilarRecipes
        [{ id := some 0, recipeName := some "Butter Chicken", timeToCook := some "40"
           ingredients := some "onion, tomato, chicken", instructions := some "cook"
           embedding := [] }] "Chicken, " 2,
      ∃ t ∈ parseIngredients "Chicken, ", ∃ s, r.ingredients = some s ∧
        listContainsSub (pyLower s.data) t.data = true) := by
  refine ⟨?_, ?_, ?_⟩
  · exact (findSimilarRecipes_matches [] "chicken" 2).2.2.2.2.1 rfl
  · exact (findSimilarRecipes_matches _ "Chicken, " 2).2.1
  · exact (findSimilarRecipes_matches _ "Chicken, " 2).2.2.2.1 (by decide)

/-! ## `_make_api_request`: retry policy -/

lemma requestCount_cons_request (a : Nat) (t : List ApiEvent) :
    requestCount (.request a :: t) = requestCount t + 1 := by
  simp [requestCount, List.filter_cons]

lemma requestCount_cons_wait (w : Nat) (t : List ApiEvent) :
    requestCount (.wait w :: t) = requestCount t := by
  simp [requestCount, List.filter_cons]

lemma requestCount_nil : requestCount ([] : List ApiEvent) = 0 := rfl

/-- Every run of the retry loop issues at most one HTTP request per entry
of the attempt list: the 503/429/500 `continue`s consume attempts of the
same `range(max_retries)` budget as the exception branch. -/
lemma requestCount_le_attempts (oracle : Nat → ApiResponse α) (maxRetries : Nat) :
    ∀ attempts : List Nat,
      requestCount (makeApiRequestGo oracle maxRetries attempts).2 ≤ attempts.length := by
  intro attempts
  induction attempts with
  | nil => simp [makeApiRequestGo, requestCount]
  | cons a more ih =>
    simp only [makeApiRequestGo]
    cases ho : oracle a with
    | http s b =>
      by_cases h503 : s = 503 <;> by_cases h429 : s = 429 <;> by_cases h500 : s = 500 <;>
        by_cases h400 : 400 ≤ s <;> by_cases hlast : a = maxRetries - 1 <;>
        simp [h503, h429, h500, h400, hlast, requestCount_cons_request,
          requestCount_cons_wait, requestCount_nil] <;> omega
    | netError =>
      by_cases hlast : a = maxRetries - 1 <;>
        simp [hlast, requestCount_cons_request, requestCount_cons_wait, requestCount_nil] <;>
        omega

/-- Counterexample to C2 as stated.  First conjunct: a response with any
other HTTP error status (here 404) does NOT make `_make_api_request` raise
immediately — `raise_for_status`'s `HTTPError` is a `RequestException`, so
the `except` clause retries it with `10*(attempt+1)`s backoff and re-raises
only on the 5th attempt (5 requests, waits 10,20,30,40).  Second conjunct:
the 503 branch does NOT loop indefinitely — five 503 responses exhaust
`range(max_retries)` and the function returns `None` after exactly 5
requests. -/
theorem makeApiRequest_counterexample :
    makeApiRequest (fun _ => ApiResponse.http 404 (0 : Nat)) 5 =
      (.raised (some 404),
       [.request 0, .wait 10, .request 1, .wait 20, .request 2, .wait 30,
        .request 3, .wait 40, .request 4]) ∧
    makeApiRequest (fun _ => ApiResponse.http 503 (0 : Nat)) 5 =
      (.fellThrough,
       [.request 0, .wait 20, .request 1, .wait 20, .request 2, .wait 20,
        .request 3, .wait 20, .request 4, .wait 20]) ∧
    requestCount (makeApiRequest (fun _ => ApiResponse.http 503 (0 : Nat)) 5).2 = 5 := by
  refine ⟨by decide, by decide, by decide⟩

/-- C2 (amended): per loop iteration of `_make_api_request`, an HTTP 503
response causes a 20s wait then the next attempt; a 429 a 30s wait; a 500 a
`30*(attempt+1)`s wait; any other HTTP error status (≥ 400) raises
`HTTPError`, which — being a `RequestException` — is caught by the same
`except` clause as network errors: both are retried with `10*(attempt+1)`s
backoff and re-raised on the final attempt (`attempt == max_retries - 1`);
a success status returns the body at once.  All branches consume the same
`range(max_retries)` budget, so no branch can loop indefinitely: a full run
issues at most `max_retries` requests, and exhausting the budget through
503/429/500 returns `None`. -/
theorem makeApiRequest_retry_policy (oracle : Nat → ApiResponse α)
    (maxRetries attempt : Nat) (more : List Nat) :
    (∀ b, oracle attempt = .http 503 b →
      makeApiRequestGo oracle maxRetries (attempt :: more) =
        ((makeApiRequestGo oracle maxRetries more).1,
         .request attempt :: .wait 20 :: (makeApiRequestGo oracle maxRetries more).2)) ∧
    (∀ b, oracle attempt = .http 429 b →
      makeApiRequestGo oracle maxRetries (attempt :: more) =
        ((makeApiRequestGo oracle maxRetries more).1,
         .request attempt :: .wait 30 :: (makeApiRequestGo oracle maxRetries more).2)) ∧
    (∀ b, oracle attempt = .http 500 b →
      makeApiRequestGo oracle maxRetries (attempt :: more) =
        ((makeApiRequestGo oracle maxRetries more).1,
         .request attempt :: .wait (30 * (attempt + 1)) ::
           (makeApiRequestGo oracle maxRetries more).2)) ∧
    (∀ s b, oracle attempt = .http s b → s ≠ 503 → s ≠ 429 → s ≠ 500 → 400 ≤ s →
      (attempt ≠ maxRetries - 1 →
        makeApiRequestGo oracle maxRetries (attempt :: more) =
          ((makeApiRequestGo oracle maxRetries more).1,
           .request attempt :: .wait (10 * (attempt + 1)) ::
             (makeApiRequestGo oracle maxRetries more).2)) ∧
      (attempt = maxRetries - 1 →
        makeApiRequestGo oracle maxRetries (attempt :: more) =
          (.raised (some s), [.request attempt]))) ∧
    (∀ s b, oracle attempt = .http s b → s < 400 →
      makeApiRequestGo oracle maxRetries (attempt :: more) =
        (.value b, [.request attempt])) ∧
    (oracle attempt = .netError →
      (attempt ≠ maxRetries - 1 →
        makeApiRequestGo oracle maxRetries (attempt :: more) =
          ((makeApiRequestGo oracle maxRetries more).1,
           .request attempt :: .wait (10 * (attempt + 1)) ::
             (makeApiRequestGo oracle maxRetries more).2)) ∧
      (attempt = maxRetries - 1 →
        makeApiRequestGo oracle maxRetries (attempt :: more) =
          (.raised none, [.request attempt]))) ∧
    requestCount (makeApiRequest oracle maxRetries).2 ≤ maxRetries := by
  refine ⟨?_, ?_, ?_, ?_, ?_, ?_, ?_⟩
  · intro b ho
    rw [makeApiRequestGo, ho]
    simp
  · intro b ho
    rw [makeApiRequestGo, ho]
    simp
  · intro b ho
    rw [makeApiRequestGo, ho]
    simp
  · intro s b ho h503 h429 h500 h400
    constructor
    · intro hlast
      rw [makeApiRequestGo, ho]
      simp [h503, h429, h500, h400, hlast]
    · intro hlast
      rw [makeApiRequestGo, ho]
      simp [h503, h429, h500, h400, hlast]
  · intro s b ho hs
    have h503 : s ≠ 503 := by omega
    have h429 : s ≠ 429 := by omega
    have h500 : s ≠ 500 := by omega
    have h400 : ¬ 400 ≤ s := by omega
    rw [makeApiRequestGo, ho]
    simp [h503, h429, h500, h400]
  · intro ho
    constructor
    · intro hlast
      rw [makeApiRequestGo, ho]
      simp [hlast]
    · intro hlast
      rw [makeApiRequestGo, ho]
      simp [hlast]
  · have h := requestCount_le_attempts oracle maxRetries (List.range maxRetries)
    simpa [makeApiRequest] using h

/-- Witness for the amended C2 at concrete inputs: a 503 at attempt 0
followed by whatever the oracle does next waits 20s and moves on, and a
constant-503 run at `max_retries = 5` issues at most 5 requests. -/
theorem makeApiRequest_retry_policy_witness :
    (makeApiRequestGo (fun _ => ApiResponse.http 503 (0 : Nat)) 5 [0, 1] =
      ((makeApiRequestGo (fun _ => ApiResponse.http 503 (0 : Nat)) 5 [1]).1,
       .request 0 :: .wait 20 ::
         (makeApiRequestGo (fun _ => ApiResponse.http 503 (0 : Nat)) 5 [1]).2)) ∧
    requestCount (makeApiRequest (fun _ => ApiResponse.http 503 (0 : Nat)) 5).2 ≤ 5 := by
  constructor
  · exact (makeApiRequest_retry_policy (fun _ => ApiResponse.http 503 (0 : Nat)) 5 0 [1]).1
      0 rfl
  · exact (makeApiRequest_retry_policy (fun _ => ApiResponse.http 503 (0 : Nat)) 5 0
      []).2.2.2.2.2.2

/-- C9: an execution in which the API answers 429 once and then 200 returns
exactly the same embedding result as one in which it answers 200
immediately — the retry is transparent to the returned value. -/
theorem makeApiRequest_429_transparent (α : Type) (berr bok : α) :
    (makeApiRequest (fun a => if a = 0 then ApiResponse.http 429 berr
        else ApiResponse.http 200 bok) 5).1 =
      (makeApiRequest (fun _ => ApiResponse.http 200 bok) 5).1 ∧
    (makeApiRequest (fun _ => ApiResponse.http 200 bok) 5).1 = .value bok := by
  have hr : List.range 5 = [0, 1, 2, 3, 4] := by decide
  constructor
  · simp [makeApiRequest, hr, makeApiRequestGo]
  · simp [makeApiRequest, hr, makeApiRequestGo]

/-- A transient response: one of the three statuses whose branch `continue`s
the loop. -/
def transientResponse : ApiResponse α → Prop := fun r =>
  ∃ b, r = .http 503 b ∨ r = .http 429 b ∨ r = .http 500 b

lemma makeApiRequestGo_transient (oracle : Nat → ApiResponse α) (maxRetries : Nat) :
    ∀ attempts : List Nat, (∀ a ∈ attempts, transientResponse (oracle a)) →
      (makeApiRequestGo oracle maxRetries attempts).1 = .fellThrough := by
  intro attempts
  induction attempts with
  | nil => intro _; rfl
  | cons a more ih =>
    intro h
    obtain ⟨b, hb⟩ := h a (List.mem_cons_self a more)
    have hmore : ∀ x ∈ more, transientResponse (oracle x) :=
      fun x hx => h x (List.mem_cons_of_mem a hx)
    rcases hb with hb | hb | hb <;>
      · rw [makeApiRequestGo, hb]
        simp [ih hmore]

/-- C10: when every one of the `max_retries` loop iterations ends in an
HTTP 503, 429 or 500 response, `_make_api_request` neither raises nor
returns embeddings: the loop falls off its end and the function returns
`None`, which is what the caller in `generate_embeddings` receives in place
of the batch's embeddings. -/
theorem makeApiRequest_transient_returns_none (α : Type)
    (oracle : Nat → ApiResponse α) (maxRetries : Nat)
    (h : ∀ a, a < maxRetries → transientResponse (oracle a)) :
    (makeApiRequest oracle maxRetries).1 = .fellThrough := by
  refine makeApiRequestGo_transient oracle maxRetries (List.range maxRetries) ?_
  intro a ha
  exact h a (List.mem_range.1 ha)

/-- Witness for C10: five 503 responses make `_make_api_request` return
`None`. -/
theorem makeApiRequest_transient_returns_none_witness :
    (makeApiRequest (fun _ => ApiResponse.http 503 ([] : List ℚ)) 5).1 = .fellThrough :=
  makeApiRequest_transient_returns_none (List ℚ) (fun _ => ApiResponse.http 503 [])
    5 (fun _ _ => ⟨[], Or.inl rfl⟩)

/-! ## `generate_embeddings`: resumption and checkpoint cadence -/

lemma genLoopGo_ok_step {E M : Type} (api : List String → BatchOutcome E)
    (texts : List String) (metadata : List M) (bs i : Nat) (more : List Nat)
    (accE : List E) (accM : List M) (embs : List E)
    (he : api ((texts.drop i).take bs) = .ok embs) :
    genLoopGo api texts metadata bs (i :: more) accE accM =
      ((genLoopGo api texts metadata bs more (accE ++ embs)
          (accM ++ (metadata.drop i).take bs)).1,
       .apiRequest ((texts.drop i).take bs) ::
         ((if (i / bs) % 5 = 0 then
             [.saveCkpt (i / bs) (accE ++ embs) (accM ++ (metadata.drop i).take bs)]
           else []) ++ .sleep 1 ::
           (genLoopGo api texts metadata bs more (accE ++ embs)
             (accM ++ (metadata.drop i).take bs)).2)) := by
  rw [genLoopGo, he]

lemma genLoopGo_exn_step {E M : Type} (api : List String → BatchOutcome E)
    (texts : List String) (metadata : List M) (bs i : Nat) (more : List Nat)
    (accE : List E) (accM : List M)
    (he : api ((texts.drop i).take bs) = .exn) :
    genLoopGo api texts metadata bs (i :: more) accE accM =
      (.raised, [.apiRequest ((texts.drop i).take bs),
                 .saveCkpt (i / bs) accE accM, .raiseErr]) := by
  rw [genLoopGo, he]

lemma requestedBatches_cons_save {E M : Type} (j : Nat) (es : List E) (ms : List M)
    (t : List (GenEvent E M)) :
    requestedBatches (.saveCkpt j es ms :: t) = requestedBatches t := rfl

lemma requestedBatches_cons_sleep {E M : Type} (w : Nat) (t : List (GenEvent E M)) :
    requestedBatches (.sleep w :: t) = requestedBatches t := rfl

lemma requestedBatches_cons_request {E M : Type} (b : List String)
    (t : List (GenEvent E M)) :
    requestedBatches (.apiRequest b :: t) = b :: requestedBatches t := rfl

/-- When every batch request succeeds with one embedding per text, the loop
started at position `i` processes exactly `texts[i:]`, appending one
embedding per remaining text. -/
lemma genLoopGo_allOk {E M : Type} (api : List String → BatchOutcome E)
    (texts : List String) (metadata : List M) (bs : Nat) (hbs : 0 < bs)
    (hok : ∀ ts, ∃ e, api ts = .ok e ∧ e.length = ts.length) :
    ∀ n i (accE : List E) (accM : List M), texts.length - i ≤ n →
      (∃ E' M', (genLoopGo api texts metadata bs (pyRange i texts.length bs) accE accM).1
          = .done E' M' ∧ E'.length = accE.length + (texts.length - i)) ∧
      (requestedBatches (genLoopGo api texts metadata bs (pyRange i texts.length bs)
          accE accM).2).flatten = texts.drop i := by
  intro n
  induction n with
  | zero =>
    intro i accE accM hn
    have hle : texts.length ≤ i := by omega
    rw [pyRange_nil _ _ _ hle]
    refine ⟨⟨accE, accM, rfl, by omega⟩, ?_⟩
    simp [genLoopGo, requestedBatches, List.drop_eq_nil_of_le hle]
  | succ n ih =>
    intro i accE accM hn
    by_cases hi : i < texts.length
    · rw [pyRange_cons _ _ _ hbs hi]
      obtain ⟨embs, he, hlen⟩ := hok ((texts.drop i).take bs)
      rw [genLoopGo_ok_step api texts metadata bs i _ accE accM embs he]
      have hrec := ih (i + bs) (accE ++ embs) (accM ++ (metadata.drop i).take bs) (by omega)
      constructor
      · obtain ⟨E', M', hdone, hElen⟩ := hrec.1
        refine ⟨E', M', hdone, ?_⟩
        rw [hElen]
        have hembs : embs.length = min bs (texts.length - i) := by
          rw [hlen]
          simp [List.length_take, List.length_drop]
        rw [List.length_append, hembs]
        omega
      · have hjoin := hrec.2
        by_cases hmod : (i / bs) % 5 = 0 <;>
          simp only [hmod, if_pos, if_neg, if_true, if_false, List.nil_append,
            List.singleton_append, requestedBatches_cons_request,
            requestedBatches_cons_save, requestedBatches_cons_sleep, List.flatten_cons]
        · rw [hjoin]
          have hdd : (texts.drop i).drop bs = texts.drop (i + bs) := List.drop_drop bs i texts
          rw [← hdd]
          exact List.take_append_drop bs (texts.drop i)
        · rw [hjoin]
          have hdd : (texts.drop i).drop bs = texts.drop (i + bs) := List.drop_drop bs i texts
          rw [← hdd]
          exact List.take_append_drop bs (texts.drop i)
    · have hle : texts.length ≤ i := by omega
      rw [pyRange_nil _ _ _ hle]
      refine ⟨⟨accE, accM, rfl, by omega⟩, ?_⟩
      simp [genLoopGo, requestedBatches, List.drop_eq_nil_of_le hle]

/-- C1: resuming `generate_embeddings` with `batch_size = 32` from a saved
checkpoint whose `batch_index` is 2 (so 64 embeddings already accumulated,
two full batches) makes the loop issue API requests exactly for
`texts[64:]` — the requested batches concatenate to `texts.drop 64` — and,
when every request returns one embedding per text, the returned embedding
sequence has length `len(texts)`. -/
theorem generateEmbeddings_resume_from_checkpoint {E M : Type}
    (api : List String → BatchOutcome E) (texts : List String) (metadata : List M)
    (ckptE : List E) (ckptM : List M)
    (hok : ∀ ts, ∃ e, api ts = .ok e ∧ e.length = ts.length)
    (hE : ckptE.length = 64) (hlen : 64 ≤ texts.length) :
    (requestedBatches (generateEmbeddings api texts metadata 32
        (some ⟨2, ckptE, ckptM⟩)).2).flatten = texts.drop 64 ∧
    ∃ E' M', (generateEmbeddings api texts metadata 32 (some ⟨2, ckptE, ckptM⟩)).1
        = .done E' M' ∧ E'.length = texts.length := by
  have h := genLoopGo_allOk api texts metadata 32 (by omega) hok
    (texts.length - 64) 64 ckptE ckptM (by omega)
  have hgen : generateEmbeddings api texts metadata 32 (some ⟨2, ckptE, ckptM⟩)
      = genLoopGo api texts metadata 32 (pyRange 64 texts.length 32) ckptE ckptM := rfl
  rw [hgen]
  refine ⟨h.2, ?_⟩
  obtain ⟨E', M', hdone, hElen⟩ := h.1
  exact ⟨E', M', hdone, by omega⟩

/-- Witness for C1: 70 texts, a checkpoint at batch index 2 holding 64
embeddings; the run requests exactly `texts[64:]` and returns 70
embeddings. -/
theorem generateEmbeddings_resume_from_checkpoint_witness :
    (requestedBatches (generateEmbeddings
        (fun ts => BatchOutcome.ok (ts.map fun _ => (0 : Nat)))
        (List.replicate 70 "x") (List.replicate 70 (0 : Nat)) 32
        (some ⟨2, List.replicate 64 0, List.replicate 64 0⟩)).2).flatten
      = (List.replicate 70 "x").drop 64 ∧
    ∃ E' M', (generateEmbeddings
        (fun ts => BatchOutcome.ok (ts.map fun _ => (0 : Nat)))
        (List.replicate 70 "x") (List.replicate 70 (0 : Nat)) 32
        (some ⟨2, List.replicate 64 0, List.replicate 64 0⟩)).1
      = .done E' M' ∧ E'.length = (List.replicate 70 "x").length :=
  generateEmbeddings_resume_from_checkpoint
    (fun ts => BatchOutcome.ok (ts.map fun _ => (0 : Nat)))
    (List.replicate 70 "x") (List.replicate 70 (0 : Nat))
    (List.replicate 64 0) (List.replicate 64 0)
    (fun ts => ⟨ts.map fun _ => 0, rfl, by simp⟩) (by simp) (by simp)

/-- Whenever the loop of `generate_embeddings` ends by re-raising, its trace
ends with a checkpoint save directly followed by the raise: no accumulated
progress is dropped between the failure and the save. -/
lemma genLoopGo_raised_ends_with_save {E M : Type} (api : List String → BatchOutcome E)
    (texts : List String) (metadata : List M) (bs : Nat) :
    ∀ (positions : List Nat) (accE : List E) (accM : List M),
      (genLoopGo api texts metadata bs positions accE accM).1 = .raised →
      ∃ pre bt j E' M',
        (genLoopGo api texts metadata bs positions accE accM).2 =
          pre ++ [.apiRequest bt, .saveCkpt j E' M', .raiseErr] := by
  intro positions
  induction positions with
  | nil =>
    intro accE accM h
    simp [genLoopGo] at h
  | cons i more ih =>
    intro accE accM h
    cases he : api ((texts.drop i).take bs) with
    | ok embs =>
      rw [genLoopGo_ok_step api texts metadata bs i more accE accM embs he] at h ⊢
      obtain ⟨pre, bt, j, E', M', hpre⟩ := ih _ _ h
      refine ⟨.apiRequest ((texts.drop i).take bs) ::
        ((if (i / bs) % 5 = 0 then
            [.saveCkpt (i / bs) (accE ++ embs) (accM ++ (metadata.drop i).take bs)]
          else []) ++ [GenEvent.sleep 1] ++ pre), bt, j, E', M', ?_⟩
      simp [hpre, List.append_assoc]
    | exn =>
      rw [genLoopGo_exn_step api texts metadata bs i more accE accM he]
      exact ⟨[], (texts.drop i).take bs, i / bs, accE, accM, rfl⟩

/-- C5: checkpoint cadence of `generate_embeddings`.  Each processed batch
is the head of exactly one recursive call of the loop, so the first two
conjuncts cover every batch of a run: (1) after a successful batch whose
absolute index `i / batch_size` is a multiple of 5, a checkpoint holding
that index and all accumulated embeddings and metadata (checkpoint data
included, batch just processed included) is saved immediately after the
request; (2) a failing batch produces exactly a request, then a checkpoint
with everything accumulated so far, then the re-raise.  (3) Globally, any
run that ends by propagating an error has a trace ending with a save
directly followed by the raise — partial progress is never lost. -/
theorem generateEmbeddings_checkpoint_cadence {E M : Type}
    (api : List String → BatchOutcome E) (texts : List String) (metadata : List M)
    (bs i : Nat) (more : List Nat) (accE : List E) (accM : List M) :
    (∀ embs, api ((texts.drop i).take bs) = .ok embs → (i / bs) % 5 = 0 →
      (genLoopGo api texts metadata bs (i :: more) accE accM).2 =
        .apiRequest ((texts.drop i).take bs) ::
        .saveCkpt (i / bs) (accE ++ embs) (accM ++ (metadata.drop i).take bs) ::
        .sleep 1 ::
        (genLoopGo api texts metadata bs more (accE ++ embs)
            (accM ++ (metadata.drop i).take bs)).2) ∧
    (api ((texts.drop i).take bs) = .exn →
      genLoopGo api texts metadata bs (i :: more) accE accM =
        (.raised, [.apiRequest ((texts.drop i).take bs),
                   .saveCkpt (i / bs) accE accM, .raiseErr])) ∧
    (∀ (positions : List Nat) (accE' : List E) (accM' : List M),
      (genLoopGo api texts metadata bs positions accE' accM').1 = .raised →
      ∃ pre bt j E' M',
        (genLoopGo api texts metadata bs positions accE' accM').2 =
          pre ++ [.apiRequest bt, .saveCkpt j E' M', .raiseErr]) := by
  refine ⟨?_, ?_, genLoopGo_raised_ends_with_save api texts metadata bs⟩
  · intro embs he hmod
    rw [genLoopGo_ok_step api texts metadata bs i more accE accM embs he]
    simp [hmod]
  · intro he
    exact genLoopGo_exn_step api texts metadata bs i more accE accM he

/-- Witness for C5: a failing first batch saves a checkpoint with the
accumulated state and re-raises, and a successful batch 0 (a multiple of 5)
saves a checkpoint right after the request. -/
theorem generateEmbeddings_checkpoint_cadence_witness :
    (genLoopGo (fun _ => (BatchOutcome.exn : BatchOutcome Nat)) ["a"] [(7 : Nat)] 1
        [0] [(5 : Nat)] [(6 : Nat)] =
      (.raised, [.apiRequest ["a"], .saveCkpt 0 [5] [6], .raiseErr])) ∧
    ((genLoopGo (fun _ => BatchOutcome.ok [(9 : Nat)]) ["a"] [(7 : Nat)] 1
        [0] [] []).2 =
      .apiRequest ["a"] :: .saveCkpt 0 [9] [7] :: .sleep 1 ::
        (genLoopGo (fun _ => BatchOutcome.ok [(9 : Nat)]) ["a"] [(7 : Nat)] 1
          [] [9] [7]).2) := by
  constructor
  · exact (generateEmbeddings_checkpoint_cadence
      (fun _ => (BatchOutcome.exn : BatchOutcome Nat)) ["a"] [(7 : Nat)] 1 0 []
      [(5 : Nat)] [(6 : Nat)]).2.1 rfl
  · exact (generateEmbeddings_checkpoint_cadence
      (fun _ => BatchOutcome.ok [(9 : Nat)]) ["a"] [(7 : Nat)] 1 0 [] [] []).1
      [(9 : Nat)] rfl rfl

/-! ## `insert_recipes`: the 768-length invariant and batch isolation -/

lemma sanitizeEmbedding_no_nan (e : List Cell) : Cell.nan ∉ sanitizeEmbedding e := by
  intro h
  obtain ⟨c, _, hc⟩ := List.mem_map.1 h
  cases c <;> simp at hc

/-- Rows only enter the table through a batch the database accepted, and the
database (schema column `VECTOR(768)`) accepts a batch only if every row's
embedding has length 768. -/
lemma insertLoopGo_length_inv (dbOk : Nat → Bool) (recipes : List RecipeDict)
    (bs : Nat) :
    ∀ (positions : List Nat) (db : DB), (∀ r ∈ db, r.embedding.length = 768) →
      ∀ r ∈ (insertLoopGo dbOk recipes bs positions db).1, r.embedding.length = 768 := by
  intro positions
  induction positions with
  | nil =>
    intro db hdb
    simpa [insertLoopGo] using hdb
  | cons i more ih =>
    intro db hdb
    simp only [insertLoopGo]
    by_cases hemp : (((recipes.drop i).take bs).map prepareRecipe).isEmpty = true
    · rw [if_pos hemp]
      exact ih db hdb
    · rw [if_neg hemp]
      by_cases hok : batchInsertOk dbOk (i / bs) (((recipes.drop i).take bs).map
          prepareRecipe) = true
      · rw [if_pos hok]
        intro r hr
        refine ih _ ?_ r hr
        intro x hx
        rcases List.mem_append.1 hx with h | h
        · exact hdb x h
        · rw [batchInsertOk, Bool.and_eq_true] at hok
          have hall := hok.2
          rw [List.all_eq_true] at hall
          have := hall x h
          simpa using this
      · rw [if_neg hok]
        intro r hr
        exact ih db hdb r hr

/-- C3: `insert_recipes` sanitizes every embedding — each NaN entry becomes
0.0 — before sending the row (a prepared row's embedding is exactly
`sanitizeEmbedding` of the source embedding, which contains no NaN), and a
row whose embedding length is not 768 is rejected by the `VECTOR(768)`
column, so if every stored row had a 768-entry embedding before the insert,
every stored row still does after it. -/
theorem insertRecipes_embedding_invariant (dbOk : Nat → Bool) (db : DB)
    (recipes : List RecipeDict) (batchSize : Nat)
    (hdb : ∀ r ∈ db, r.embedding.length = 768) :
    (∀ r ∈ (insertRecipes dbOk db recipes batchSize).1, r.embedding.length = 768) ∧
    (∀ rec : RecipeDict, (prepareRecipe rec).embedding = sanitizeEmbedding rec.embedding) ∧
    (∀ rec : RecipeDict, Cell.nan ∉ (prepareRecipe rec).embedding) := by
  refine ⟨?_, fun _ => rfl, fun rec => sanitizeEmbedding_no_nan rec.embedding⟩
  exact insertLoopGo_length_inv dbOk recipes batchSize
    (pyRange 0 recipes.length batchSize) db hdb

/-- Witness for C3: inserting a recipe whose embedding is 768 NaNs into an
empty table keeps every stored row at length 768 (and the prepared row is
all zeros). -/
theorem insertRecipes_embedding_invariant_witness :
    (∀ r ∈ (insertRecipes (fun _ => true) []
        [{ id := some 0, recipeName := none, timeToCook := none, ingredients := none
           instructions := none, embedding := List.replicate 768 Cell.nan }] 50).1,
      r.embedding.length = 768) ∧
    Cell.nan ∉ (prepareRecipe
        { id := some 0, recipeName := none, timeToCook := none, ingredients := none
          instructions := none, embedding := List.replicate 768 Cell.nan }).embedding := by
  constructor
  · exact (insertRecipes_embedding_invariant (fun _ => true) [] _ 50 (by simp)).1
  · exact (insertRecipes_embedding_invariant (fun _ => true) [] [] 50 (by simp)).2.2 _

/-- The loop of `insert_recipes` from batch start position `bs * k`:
the final table is the initial one plus exactly the prepared rows of the
accepted batches; the attempted batch numbers are consecutive starting at
`k`; and the number of attempts is the total number of batches — a failed
batch is rolled back (contributes no rows), skipped (attempted exactly
once, never retried), and does not stop the loop. -/
lemma insertLoopGo_spec (dbOk : Nat → Bool) (recipes : List RecipeDict) (bs : Nat)
    (hbs : 0 < bs) :
    ∀ n i k (db : DB), recipes.length - i ≤ n → i = bs * k →
      ((insertLoopGo dbOk recipes bs (pyRange i recipes.length bs) db).1 =
        db ++ (((insertLoopGo dbOk recipes bs (pyRange i recipes.length bs) db).2.filter
            (fun a => a.2)).map
          (fun a => ((recipes.drop (bs * a.1)).take bs).map prepareRecipe)).flatten) ∧
      ((insertLoopGo dbOk recipes bs (pyRange i recipes.length bs) db).2.map Prod.fst =
        List.range' k
          (insertLoopGo dbOk recipes bs (pyRange i recipes.length bs) db).2.length) ∧
      ((insertLoopGo dbOk recipes bs (pyRange i recipes.length bs) db).2.length =
        (recipes.length - i + bs - 1) / bs) := by
  intro n
  induction n with
  | zero =>
    intro i k db hn hik
    have hle : recipes.length ≤ i := by omega
    rw [pyRange_nil _ _ _ hle]
    have h0 : recipes.length - i = 0 := by omega
    refine ⟨by simp [insertLoopGo], by simp [insertLoopGo], ?_⟩
    rw [h0]
    simp only [insertLoopGo, List.length_nil]
    rw [eq_comm]
    exact Nat.div_eq_of_lt (by omega)
  | succ n ih =>
    intro i k db hn hik
    by_cases hi : i < recipes.length
    · rw [pyRange_cons _ _ _ hbs hi]
      have hkk : i / bs = k := by
        rw [hik]
        exact Nat.mul_div_cancel_left k hbs
      have hik' : i + bs = bs * (k + 1) := by
        rw [hik, Nat.mul_succ]
      have hn' : recipes.length - (i + bs) ≤ n := by omega
      have hrec := ih (i + bs) (k + 1) (db ++ ((recipes.drop i).take bs).map prepareRecipe)
        hn' hik'
      have hrec' := ih (i + bs) (k + 1) db hn' hik'
      have hne : ¬ (((recipes.drop i).take bs).map prepareRecipe).isEmpty = true := by
        simp only [List.isEmpty_iff, List.map_eq_nil_iff]
        intro hnil
        have := congrArg List.length hnil
        simp [List.length_take, List.length_drop] at this
        omega
      simp only [insertLoopGo]
      rw [if_neg hne, hkk]
      by_cases hok : batchInsertOk dbOk k (((recipes.drop i).take bs).map prepareRecipe)
          = true
      · rw [if_pos hok]
        refine ⟨?_, ?_, ?_⟩
        · simp only [List.filter_cons, List.map_cons, List.flatten_cons,
            eq_self_iff_true, if_true]
          rw [hrec.1, ← hik]
          simp [List.append_assoc]
        · simp only [List.map_cons, List.length_cons]
          rw [hrec.2.1, List.range'_succ]
        · simp only [List.length_cons]
          rw [hrec.2.2, eq_comm, ceil_count_step recipes.length i bs hbs hi]
      · rw [if_neg hok]
        refine ⟨?_, ?_, ?_⟩
        · simp only [List.filter_cons]
          rw [if_neg (by simp : ¬((k, false).2 = true)), hrec'.1]
        · simp only [List.map_cons, List.length_cons]
          rw [hrec'.2.1, List.range'_succ]
        · simp only [List.length_cons]
          rw [hrec'.2.2, eq_comm, ceil_count_step recipes.length i bs hbs hi]
    · have hle : recipes.length ≤ i := by omega
      rw [pyRange_nil _ _ _ hle]
      have h0 : recipes.length - i = 0 := by omega
      refine ⟨by simp [insertLoopGo], by simp [insertLoopGo], ?_⟩
      rw [h0]
      simp only [insertLoopGo, List.length_nil]
      rw [eq_comm]
      exact Nat.div_eq_of_lt (by omega)

/-- C6: `insert_recipes` never lets a batch failure escape — it is a total
function of the database's per-batch answers.  The final table is the
initial table plus exactly the prepared rows of the batches whose insert
succeeded (a failed batch is rolled back: none of its rows appear); the
attempted batch numbers are `0, 1, 2, ...` in order, each exactly once (a
failed batch is not retried); and the number of attempts is the total
number of batches, so a failure never aborts the remaining batches. -/
theorem insertRecipes_batch_failure_isolated (dbOk : Nat → Bool) (db : DB)
    (recipes : List RecipeDict) (batchSize : Nat) (hbs : 0 < batchSize) :
    ((insertRecipes dbOk db recipes batchSize).1 =
      db ++ (((insertRecipes dbOk db recipes batchSize).2.filter (fun a => a.2)).map
        (fun a => ((recipes.drop (batchSize * a.1)).take batchSize).map
          prepareRecipe)).flatten) ∧
    ((insertRecipes dbOk db recipes batchSize).2.map Prod.fst =
      List.range (insertRecipes dbOk db recipes batchSize).2.length) ∧
    ((insertRecipes dbOk db recipes batchSize).2.length =
      (recipes.length + batchSize - 1) / batchSize) := by
  have h := insertLoopGo_spec dbOk recipes batchSize hbs recipes.length 0 0 db
    (by omega) (by omega)
  have hins : insertRecipes dbOk db recipes batchSize
      = insertLoopGo dbOk recipes batchSize (pyRange 0 recipes.length batchSize) db := rfl
  rw [hins]
  refine ⟨h.1, ?_, ?_⟩
  · rw [h.2.1, List.range_eq_range']
  · have := h.2.2
    simpa using this

/-- Witness for C6: a run over one single-recipe batch whose insert the
database rejects still attempts exactly one batch. -/
theorem insertRecipes_batch_failure_isolated_witness :
    (insertRecipes (fun _ => false) []
        [{ id := some 0, recipeName := none, timeToCook := none, ingredients := none
           instructions := none, embedding := [] }] 1).2.length = 1 := by
  have h := (insertRecipes_batch_failure_isolated (fun _ => false) []
      [{ id := some 0, recipeName := none, timeToCook := none, ingredients := none
         instructions := none, embedding := [] }] 1 (by omega)).2.2
  simpa using h

end RecipeRAG
